import Mathlib

/-
Verification of the archival-metadata rules engine (src/core/rules_engine.py).

The engine is embedded shallowly: a metadata record is an association list
from field name to an optional string value (`none` models Python `None`;
a key that is absent and a key bound to `None` are identified, which is
behaviour-preserving for this engine: the only places where the code
distinguishes them are `.get(k, "")` defaults whose outcomes coincide on
both shapes).  The constant tables of the repository constants module
(keyword lists, code tables, cutoff year, forced-null fields) are not part
of src/; the engine is therefore parameterised over a `Consts` structure,
and a concrete instantiation modelled from the spec is provided for
evaluating theorems on concrete inputs.

Python regular expressions used by `_clean_title` are embedded as
executable matchers over `List Char`; `\d` is modelled as the ASCII
decimal digits and `\s` / `str.strip()` as a fixed set of whitespace
code points, which agrees with Python on every input appearing in the
development.
-/

set_option autoImplicit false

namespace RulesEngine

/-- Whitespace as recognised by the Python `str.strip()` method and the regex
class for whitespace (restricted to the common code points). -/
def isPySpace (c : Char) : Bool :=
  c == ' ' || c == '\t' || c == '\n' || c == '\r' || c == '\u000B' ||
  c == '\u000C' || c == ' ' || c == '　'

/-- The regex digit class, modelled as ASCII decimal digits. -/
def isDigitC (c : Char) : Bool :=
  Char.isDigit c

/-- Drop matching characters from the end of a list. -/
def dropEndWhile (f : Char → Bool) (l : List Char) : List Char :=
  (l.reverse.dropWhile f).reverse

/-- Python `str.strip()` on a character list. -/
def pyStripL (l : List Char) : List Char :=
  dropEndWhile isPySpace (l.dropWhile isPySpace)

/-- Python `str.strip()`. -/
def pyStrip (s : String) : String :=
  String.mk (pyStripL s.data)

/-- Boolean prefix test on character lists. -/
def isPrefixB : List Char → List Char → Bool
  | [], _ => true
  | _ :: _, [] => false
  | a :: as, b :: bs => a == b && isPrefixB as bs

/-- Boolean contiguous-substring test (Python `needle in haystack`). -/
def isInfixB (needle : List Char) : List Char → Bool
  | [] => isPrefixB needle []
  | b :: bs => isPrefixB needle (b :: bs) || isInfixB needle bs

/-- Python `needle in haystack` on strings. -/
def isSubstr (needle hay : String) : Bool :=
  isInfixB needle.data hay.data

/-- First `n` characters of a string (Python slice `s[:n]`). -/
def strTake (s : String) (n : Nat) : String :=
  String.mk (s.data.take n)

/-- All-digit run to a number; `none` when empty or not all digits. -/
def digitsToNat? (l : List Char) : Option Nat :=
  match l with
  | [] => none
  | ds =>
    if ds.all isDigitC then
      some (ds.foldl (fun a c => a * 10 + (c.toNat - 48)) 0)
    else none

/-- Python `int(s)`: surrounding whitespace, an optional sign and a
nonempty ASCII digit run (digit-group underscores are not modelled). -/
def pyInt (s : String) : Option Int :=
  match pyStripL s.data with
  | [] => none
  | '+' :: ds => (digitsToNat? ds).map (fun n => (n : Int))
  | '-' :: ds => (digitsToNat? ds).map (fun n => -(n : Int))
  | ds => (digitsToNat? ds).map (fun n => (n : Int))

/-- A metadata record: field name to optional string value, first
binding wins.  `none` models Python `None` (and an absent key). -/
def Metadata : Type := List (String × Option String)

instance : DecidableEq Metadata := by
  unfold Metadata; infer_instance

/-- Emptiness of a record (Python falsiness of the dict). -/
def Metadata.isEmpty (m : Metadata) : Bool :=
  List.isEmpty m

/-- Field lookup, Python `metadata.get(k)`. -/
def mget : Metadata → String → Option String
  | [], _ => none
  | (k, v) :: rest, key => if k = key then v else mget rest key

/-- Field update, Python `metadata[k] = v`. -/
def mset (m : Metadata) (k : String) (v : Option String) : Metadata :=
  (k, v) :: m

/-- Python truthiness of a field value (`None` and `""` are falsy). -/
def truthy : Option String → Bool
  | none => false
  | some s => s != ""

/- ── Regex matchers for `_clean_title` ─────────────────────────────────
Each end-anchored pattern is embedded as a Bool matcher that decides
whether an entire character list matches the pattern; `re.sub` of an
end-anchored pattern is then "cut at the leftmost position from which
the rest of the title matches". -/

/-- One character from a class, then the continuation. -/
def oneChar (f : Char → Bool) (k : List Char → Bool) : List Char → Bool
  | [] => false
  | c :: cs => f c && k cs

/-- A literal word, then the continuation. -/
def litC : List Char → (List Char → Bool) → List Char → Bool
  | [], k, s => k s
  | _ :: _, _, [] => false
  | a :: as, k, c :: cs => a == c && litC as k cs

/-- Regex `\s*` before a continuation (with backtracking). -/
def wsStar (k : List Char → Bool) : List Char → Bool
  | [] => k []
  | c :: cs => k (c :: cs) || (isPySpace c && wsStar k cs)

/-- Regex `\s+` before a continuation. -/
def wsPlus (k : List Char → Bool) : List Char → Bool :=
  oneChar isPySpace (wsStar k)

/-- Regex `c*` for a character class, before a continuation. -/
def repStar (f : Char → Bool) (k : List Char → Bool) : List Char → Bool
  | [] => k []
  | c :: cs => k (c :: cs) || (f c && repStar f k cs)

/-- Regex `c{lo,hi}` for a character class, before a continuation. -/
def repRange (f : Char → Bool) : Nat → Nat → (List Char → Bool) → List Char → Bool
  | 0, 0, k, s => k s
  | 0, hi + 1, k, s =>
    k s || (match s with
            | [] => false
            | c :: cs => f c && repRange f 0 hi k cs)
  | _ + 1, 0, _, _ => false
  | lo + 1, hi + 1, k, s =>
    match s with
    | [] => false
    | c :: cs => f c && repRange f lo hi k cs

/-- End of input (the `$` anchor). -/
def endC (s : List Char) : Bool :=
  s.isEmpty

/-- Opening brackets of the `_clean_title` bracket class. -/
def openBr (c : Char) : Bool :=
  c == '[' || c == '(' || c == '（' || c == '【'

/-- Closing brackets of the `_clean_title` bracket class. -/
def closeBr (c : Char) : Bool :=
  c == ']' || c == ')' || c == '）' || c == '】'

/-- Rule 1 pattern: trailing bracketed 6-8 digit date. -/
def rx1 : List Char → Bool :=
  wsStar (oneChar openBr (repRange isDigitC 6 8 (oneChar closeBr endC)))

/-- Rule 2 pattern: trailing bracketed Chinese date. -/
def rx2 : List Char → Bool :=
  wsStar (oneChar openBr (repRange isDigitC 4 4 (litC "年".data
    (repRange isDigitC 1 2 (litC "月".data
      (repRange isDigitC 1 2 (litC "日".data (oneChar closeBr endC))))))))

/-- Rule 3 pattern: trailing bracketed year-version mark. -/
def rx3 : List Char → Bool :=
  wsStar (oneChar openBr (repRange isDigitC 4 4 (litC "年".data
    (oneChar (fun c => c == '版' || c == '号' || c == '期') (oneChar closeBr endC)))))

/-- Rule 6 pattern: trailing parenthesised document number holding an
embedded bracketed year. -/
def rx6 : List Char → Bool :=
  wsStar (oneChar (fun c => c == '(' || c == '（')
    (repRange (fun c => !(c == ')' || c == '）')) 0 30
      (oneChar (fun c => c == '[' || c == '【')
        (repRange isDigitC 4 4
          (oneChar (fun c => c == ']' || c == '】')
            (repRange (fun c => !(c == ')' || c == '）')) 0 10
              (oneChar (fun c => c == ')' || c == '）') endC)))))))

/-- Rule 6b pattern: trailing bare document number after whitespace. -/
def rx6b : List Char → Bool :=
  wsPlus (repRange (fun c => !(isPySpace c) && !(c == '[') && !(c == '(')) 1 10
    (oneChar (fun c => c == '(' || c == '[' || c == '（' || c == '【')
      (repRange isDigitC 4 4
        (oneChar (fun c => c == ')' || c == ']' || c == '）' || c == '】')
          (oneChar isDigitC (repStar isDigitC (litC "号".data endC)))))))

/-- Rule 6c pattern: trailing `[YYYY]N号` document number. -/
def rx6c : List Char → Bool :=
  wsStar (litC "[".data (repRange isDigitC 4 4 (litC "]".data
    (oneChar isDigitC (repStar isDigitC (litC "号".data endC))))))

/-- Rule 8a pattern: trailing dash-introduced briefing source clause. -/
def rx8a : List Char → Bool :=
  wsStar (repRange (fun c => c == '—' || c == '－') 1 2
    (repRange (fun c => !(c == '—')) 2 30 (litC "简报".data endC)))

/-- Rule 8b pattern: trailing dashed issue number. -/
def rx8b : List Char → Bool :=
  wsStar (oneChar (fun c => c == '-' || c == '－' || c == '—')
    (wsStar (litC "第".data (oneChar isDigitC (repStar isDigitC (litC "期".data endC))))))

/-- Rule 8c pattern: trailing parenthesised issue number. -/
def rx8c : List Char → Bool :=
  wsStar (oneChar (fun c => c == '（' || c == '(' || c == '【')
    (wsStar (litC "第".data (oneChar isDigitC (repStar isDigitC (litC "期".data
      (wsStar (oneChar (fun c => c == ')' || c == '）' || c == '】') (wsStar endC)))))))))

/-- Rule 8d pattern: trailing bare issue number. -/
def rx8d : List Char → Bool :=
  wsStar (litC "第".data (oneChar isDigitC (repStar isDigitC (litC "期".data endC))))

/-- The prefix kept by `re.sub` of an end-anchored pattern: `some p`
when the title splits as `p ++ q` with `q` the leftmost matching
suffix, `none` when no suffix matches. -/
def goStrip (mm : List Char → Bool) : List Char → Option (List Char)
  | [] => if mm [] then some [] else none
  | c :: cs =>
    if mm (c :: cs) then some []
    else (goStrip mm cs).map (fun p => c :: p)

/-- `re.sub(pattern-anchored-at-end, "", s)`. -/
def stripEnd (mm : List Char → Bool) (s : List Char) : List Char :=
  match goStrip mm s with
  | some p => p
  | none => s

/-- Rule 4: strip a leading bracketed bare year and following blanks. -/
def titleRule4 (s : List Char) : List Char :=
  match s with
  | a :: b :: c :: d :: e :: f :: rest =>
    if openBr a && isDigitC b && isDigitC c && isDigitC d && isDigitC e && closeBr f
    then rest.dropWhile isPySpace
    else s
  | _ => s

/-- Parse `\d{1,2}` followed by a literal marker character. -/
def parseMD (mark : Char) : List Char → Option (List Char)
  | a :: b :: c :: rest =>
    if isDigitC a && isDigitC b && c == mark then some rest
    else if isDigitC a && b == mark then some (c :: rest)
    else none
  | [a, b] => if isDigitC a && b == mark then some [] else none
  | _ => none

/-- Rule 5 core: the matched leading bracketed Chinese date removed,
`none` when the pattern does not match at the start. -/
def titleRule5core (s : List Char) : Option (List Char) :=
  match s with
  | o :: d1 :: d2 :: d3 :: d4 :: y :: rest =>
    if openBr o && isDigitC d1 && isDigitC d2 && isDigitC d3 && isDigitC d4 && y == '年' then
      match parseMD '月' rest with
      | some r2 =>
        match parseMD '日' r2 with
        | some (cb :: r3) =>
          if closeBr cb then some (r3.dropWhile isPySpace) else none
        | _ => none
      | none => none
    else none
  | _ => none

/-- Rule 5: strip a leading bracketed Chinese date and following blanks. -/
def titleRule5 (s : List Char) : List Char :=
  match titleRule5core s with
  | some r => r
  | none => s

/-- Rule 7 candidate test: does the title split as
`body ++ blanks ++ "[" ++ body ++ "]"` with `body` of length `b`
containing no newline?  (`re.match` with a lazy group and a
backreference.) -/
def rule7check (s : List Char) (b : Nat) : Bool :=
  if 2 * b + 2 > s.length then false
  else
    (s.take b).all (fun c => !(c == '\n')) &&
    ((s.drop b).take (s.length - 2 * b - 2)).all isPySpace &&
    ((s.drop b).drop (s.length - 2 * b - 2) == '[' :: (s.take b ++ [']']))

/-- Rule 7: collapse `body[body]` to `body` (lazy: shortest body wins). -/
def titleRule7 (s : List Char) : List Char :=
  match (List.range s.length).find? (fun i => rule7check s (i + 1)) with
  | some i => s.take (i + 1)
  | none => s

/-- Rule 9 core: `\d{1,3}号\s+` with the matched part removed. -/
def rule9core (t : List Char) : Option (List Char) :=
  if 1 ≤ (t.takeWhile isDigitC).length && (t.takeWhile isDigitC).length ≤ 3 then
    match t.dropWhile isDigitC with
    | h :: sp :: r2 =>
      if h == '号' && isPySpace sp then some ((sp :: r2).dropWhile isPySpace)
      else none
    | _ => none
  else none

/-- Rule 9: strip a leading bare `第?\d{1,3}号` prefix plus blanks. -/
def titleRule9 (s : List Char) : List Char :=
  match s with
  | [] => []
  | c :: cs =>
    match rule9core (if c == '第' then cs else c :: cs) with
    | some r => r
    | none => c :: cs

/-- Rule 10: drop a leading `[X]` when the rest continues with
`关于印发《X》`. -/
def titleRule10 (s : List Char) : List Char :=
  match s with
  | '[' :: rest =>
    match rest.takeWhile (fun c => !(c == ']')), rest.dropWhile (fun c => !(c == ']')) with
    | g1h :: g1t, _ :: r3 =>
      if isPrefixB ("关于印发《".data ++ (g1h :: g1t) ++ "》".data) r3 then r3
      else '[' :: rest
    | _, _ => '[' :: rest
  | _ => s

/-- Rule 8 block: the four briefing-specific trailing cleanups, applied
only when the title currently contains the briefing marker. -/
def rule8block (s : List Char) : List Char :=
  if isInfixB "简报".data s then
    stripEnd rx8d (stripEnd rx8c (stripEnd rx8b (stripEnd rx8a s)))
  else s

/-- The ordered transformation sequence of `_clean_title`, from the
already-stripped title to the final (re-stripped) title. -/
def cleanTitleSteps (t : List Char) : List Char :=
  pyStripL
    (titleRule10
      (titleRule9
        (rule8block
          (titleRule7
            (stripEnd rx6c
              (stripEnd rx6b
                (stripEnd rx6
                  (titleRule5
                    (titleRule4
                      (stripEnd rx3
                        (stripEnd rx2
                          (stripEnd rx1 t))))))))))))

/-- The title normalizer as a function on titles: the stripped input run
through the ordered regex sequence of `_clean_title`. -/
def normalizeTitle (s : String) : String :=
  String.mk (cleanTitleSteps (pyStripL s.data))

/-- `_clean_title` on a metadata record. -/
def cleanTitleMeta (m : Metadata) : Metadata :=
  if m.isEmpty then m
  else
    let title := pyStripL ((mget m "题名").getD "").data
    if title.isEmpty then m
    else
      let cleaned := cleanTitleSteps title
      if cleaned == title then m else mset m "题名" (some (String.mk cleaned))

/- ── Constant tables ──────────────────────────────────────────────────── -/

/-- The constant tables imported by the rules engine from the
repository constants module (which is not part of src/): keyword
lists, the disciplinary regex patterns (abstracted to match functions),
the two year-scoped code tables with their cutoff year, and the
forced-null field set.  The engine is parameterised over them. -/
structure Consts where
  forceNullFields : List String
  briefingPartyKws : List String
  briefingBusinessKws : List String
  trainingKws : List String
  trainingMgmtKws : List String
  partyTrainingKws : List String
  addressChangeKws : List String
  maintenanceKws : List String
  maintenanceDocTypes : List String
  importantNoticeKws : List String
  regulationKws : List String
  internalOrgKws : List String
  bidKws : List String
  partyBranchKws : List String
  partyBranchAdjustKws : List String
  partyBranchTargetKws : List String
  partyBranchElectionResultKws : List String
  businessLegitimateKws : List String
  businessFalsePositiveDocTypes : List String
  controlledSecurityLevels : List String
  privacyKws : List String
  commercialKws : List String
  commercialExemptKws : List String
  negativeTitleKws : List String
  negativePatterns : List (String → Bool)
  codeNew : List (String × String)
  codeOld : List (String × String)
  codeSwitchYear : Int

/-- Modelled from the spec: `PERIOD_ORDER`, the strict total order on
the retention-period domain (1/5/10/30 years, permanent) of §3 of the
spec; the code reads it with `.get(x, 0)` so unknown values rank 0, and
the exact ranks are irrelevant as long as the order is strict. -/
def periodOrder (s : String) : Nat :=
  if s = "1年" then 1
  else if s = "5年" then 2
  else if s = "10年" then 3
  else if s = "30年" then 4
  else if s = "永久" then 5
  else 0

/-- Modelled from the spec: one concrete instantiation of the missing
`constants` module, following §2-§4 of the spec (three top-level
categories with distinct nonempty codes in two year-scoped tables with
cutoff year 2020, small keyword lists, organizational-code forced-null
fields).  Used to evaluate theorems on concrete inputs. -/
def defaultConsts : Consts where
  forceNullFields := ["组织机构代码"]
  briefingPartyKws := ["党"]
  briefingBusinessKws := ["档案", "培训"]
  trainingKws := ["培训"]
  trainingMgmtKws := ["培训管理", "培训制度", "考勤"]
  partyTrainingKws := ["党员培训"]
  addressChangeKws := ["寄存地址变更"]
  maintenanceKws := ["维修", "安装"]
  maintenanceDocTypes := ["通知", "函"]
  importantNoticeKws := ["重要"]
  regulationKws := ["管理办法", "制度", "条例", "实施细则", "章程"]
  internalOrgKws := ["公司"]
  bidKws := ["结果公示", "通知函"]
  partyBranchKws := ["党支部"]
  partyBranchAdjustKws := ["更换", "调整"]
  partyBranchTargetKws := ["书记", "委员"]
  partyBranchElectionResultKws := ["换届选举结果"]
  businessLegitimateKws := ["档案", "培训"]
  businessFalsePositiveDocTypes := ["通知", "会议纪要"]
  controlledSecurityLevels := ["内部"]
  privacyKws := ["身份证", "工资"]
  commercialKws := ["合同", "报价"]
  commercialExemptKws := ["中标结果"]
  negativeTitleKws := ["通报批评", "批评通报"]
  negativePatterns := [fun s => isSubstr "处分" s]
  codeNew := [("党群类", "D1"), ("综合类", "Z2"), ("业务类", "Y3")]
  codeOld := [("党群类", "1"), ("综合类", "2"), ("业务类", "3")]
  codeSwitchYear := 2020

/- ── Priority 0: `_force_fix_fields` ──────────────────────────────────── -/

/-- One iteration of the forced-null loop body. -/
def forceNullStep (m : Metadata) (f : String) : Metadata :=
  if truthy (mget m f) && !(mget m f == some "null") then mset m f none else m

/-- Filing-unit synchronisation: default `立档单位名称` to the
responsible party when falsy. -/
def fixFilingUnit (m : Metadata) : Metadata :=
  if !(truthy (mget m "立档单位名称")) then
    mset m "立档单位名称" (mget m "责任者")
  else m

/-- Security-level domain validation with its cascade to the secrecy
period. -/
def fixSecurityLevel (m : Metadata) : Metadata :=
  match mget m "密级" with
  | some lv =>
    if lv != "" && !(["非涉密", "内部", "秘密", "机密", "绝密"].contains lv) then
      mset (mset m "密级" none) "保密期限" none
    else m
  | none => m

/-- Secrecy-period domain validation. -/
def fixSecurityPeriod (m : Metadata) : Metadata :=
  match mget m "保密期限" with
  | some p =>
    if p != "" && !(["1年", "5年", "10年"].contains p) then
      mset m "保密期限" none
    else m
  | none => m

/-- `_force_fix_fields`: forced-null loop, filing-unit synchronisation,
security-level and security-period domain validation, in the order of
the source. -/
def forceFixFields (cs : Consts) (m : Metadata) : Metadata :=
  if m.isEmpty then m
  else
    fixSecurityPeriod
      (fixSecurityLevel
        (fixFilingUnit (cs.forceNullFields.foldl forceNullStep m)))

/- ── Priority 3: `_validate_classification_code` ──────────────────────── -/

/-- `_resolve_code`: year-scoped table selection plus exact-key lookup. -/
def lookupStr : List (String × String) → String → Option String
  | [], _ => none
  | (k, v) :: rest, n => if k = n then some v else lookupStr rest n

/-- `_resolve_code(year, category_name)`. -/
def resolveCode (cs : Consts) (year : Int) (categoryName : String) : String :=
  let mapping := if year ≥ cs.codeSwitchYear then cs.codeNew else cs.codeOld
  (lookupStr mapping categoryName).getD ""

/-- `_validate_classification_code`: effective-year determination with
fallback, then code resolution and unconditional overwrite on success. -/
def validateClassificationCode (cs : Consts) (m : Metadata) : Metadata :=
  if m.isEmpty then m
  else
    let formedTime := pyStrip ((mget m "文件形成时间").getD "")
    let y1 : Option Int :=
      if formedTime ≠ "" ∧ 4 ≤ formedTime.length then pyInt (strTake formedTime 4)
      else none
    let yr : Option Int :=
      match y1 with
      | some y => if y = 0 then pyInt ((mget m "归档年度").getD "") else some y
      | none => pyInt ((mget m "归档年度").getD "")
    match yr with
    | none => m
    | some year =>
      let categoryName := (mget m "实体分类名称").getD ""
      let expectedCode := resolveCode cs year categoryName
      if expectedCode ≠ "" then mset m "实体分类号" (some expectedCode) else m

/- ── Priority 1: `_apply_supplementary_rules` ─────────────────────────── -/

/-- The per-invocation state of the supplementary chain: the record
plus the period lock. -/
def SupState : Type := Metadata × Bool

/-- Supplementary rule 2 (briefing): runs first, fixes the period to
ten years, sets the lock, reclassifies and re-resolves the code. -/
def supRule2 (cs : Consts) (title content : String) (st : SupState) : SupState :=
  if isSubstr "简报" title then
    let m := mset st.1 "保管期限" (some "10年")
    let m := if cs.briefingPartyKws.any (fun k => isSubstr k content) then
               mset m "实体分类名称" (some "党群类")
             else if cs.briefingBusinessKws.any (fun k => isSubstr k content) then
               mset m "实体分类名称" (some "业务类")
             else
               mset m "实体分类名称" (some "综合类")
    (validateClassificationCode cs m, true)
  else st

/-- Supplementary rule 1 (internal training): reclassify, and raise the
period to thirty years only when unlocked and strictly below. -/
def supRule1 (cs : Consts) (title content : String) (st : SupState) : SupState :=
  let isTraining := cs.trainingKws.any (fun k => isSubstr k title)
  let isTrainingMgmt := cs.trainingMgmtKws.any (fun k => isSubstr k title)
  let isPartyTraining := cs.partyTrainingKws.any (fun k => isSubstr k content)
  if isTraining && !isTrainingMgmt && !isPartyTraining then
    let m := mset st.1 "实体分类名称" (some "业务类")
    let m := if !st.2 then
               if periodOrder ((mget m "保管期限").getD "") < periodOrder "30年" then
                 mset m "保管期限" (some "30年")
               else m
             else m
    (validateClassificationCode cs m, st.2)
  else st

/-- Supplementary rule 3 (deposit-address change): ten years unless locked. -/
def supRule3 (cs : Consts) (content : String) (st : SupState) : SupState :=
  if cs.addressChangeKws.any (fun k => isSubstr k content) then
    if !st.2 then (mset st.1 "保管期限" (some "10年"), st.2) else st
  else st

/-- Supplementary rule 4 (maintenance notices): ten years unless locked. -/
def supRule4 (cs : Consts) (title content : String) (st : SupState) : SupState :=
  if cs.maintenanceKws.any (fun k => isSubstr k content) then
    if cs.maintenanceDocTypes.any (fun d => isSubstr d title) then
      if !st.2 then (mset st.1 "保管期限" (some "10年"), st.2) else st
    else st
  else st

/-- The file-number presence test shared by rules 5 and 7:
`file_number and str(file_number).strip() and str(file_number) != "null"`. -/
def hasNumber : Option String → Bool
  | none => false
  | some s => s != "" && pyStrip s != "" && s != "null"

/-- Supplementary rule 5 (generic notice): ten years when no file
number and no importance keyword, unless locked. -/
def supRule5 (cs : Consts) (title content : String) (st : SupState) : SupState :=
  if isSubstr "通知" title then
    let hasNum := hasNumber (mget st.1 "文件编号")
    let isImportant := cs.importantNoticeKws.any (fun k => isSubstr k content)
    if !hasNum && !isImportant then
      if !st.2 then (mset st.1 "保管期限" (some "10年"), st.2) else st
    else st
  else st

/-- Supplementary rule 6 (internal regulations): reclassify always,
thirty years unless locked, re-resolve the code. -/
def supRule6 (cs : Consts) (title content : String) (st : SupState) : SupState :=
  if cs.regulationKws.any (fun k => isSubstr k title) then
    if cs.internalOrgKws.any (fun k => isSubstr k content) then
      let m := mset st.1 "实体分类名称" (some "综合类")
      let m := if !st.2 then mset m "保管期限" (some "30年") else m
      (validateClassificationCode cs m, st.2)
    else st
  else st

/-- Supplementary rule 8 (criticism notices): thirty years unless locked. -/
def supRule8 (title : String) (st : SupState) : SupState :=
  if ["批评通报", "通报批评"].any (fun k => isSubstr k title) then
    if !st.2 then (mset st.1 "保管期限" (some "30年"), st.2) else st
  else st

/-- Supplementary rule 9 (bid results): thirty years unless locked. -/
def supRule9 (cs : Consts) (title : String) (st : SupState) : SupState :=
  if isSubstr "中标" title && cs.bidKws.any (fun k => isSubstr k title) then
    if !st.2 then (mset st.1 "保管期限" (some "30年"), st.2) else st
  else st

/-- Supplementary rule 10 (party-branch adjustment requests):
reclassify always, thirty years unless locked, skip on election
results. -/
def supRule10 (cs : Consts) (content : String) (st : SupState) : SupState :=
  if cs.partyBranchKws.any (fun k => isSubstr k content) then
    let isAdjust := cs.partyBranchAdjustKws.any (fun k => isSubstr k content)
    let isTarget := cs.partyBranchTargetKws.any (fun k => isSubstr k content)
    let isRequest := isSubstr "请示" content
    let isElection := cs.partyBranchElectionResultKws.any (fun k => isSubstr k content)
    if isAdjust && isTarget && isRequest && !isElection then
      let m := mset st.1 "实体分类名称" (some "党群类")
      let m := if !st.2 then mset m "保管期限" (some "30年") else m
      (validateClassificationCode cs m, st.2)
    else st
  else st

/-- Business-category false-positive guard: force back to the general
category and re-resolve the code. -/
def supGuard (cs : Consts) (title content : String) (st : SupState) : SupState :=
  if mget st.1 "实体分类名称" == some "业务类" then
    if !(cs.businessLegitimateKws.any (fun k => isSubstr k content)) then
      if cs.businessFalsePositiveDocTypes.any (fun d => isSubstr d title) then
        (validateClassificationCode cs (mset st.1 "实体分类名称" (some "综合类")), st.2)
      else st
    else st
  else st

/-- Supplementary rule 7 (file-number escalation, runs last): raise any
period strictly below thirty years to thirty years, unless locked. -/
def supRule7 (st : SupState) : SupState :=
  if hasNumber (mget st.1 "文件编号") then
    if periodOrder ((mget st.1 "保管期限").getD "") < periodOrder "30年" then
      if !st.2 then (mset st.1 "保管期限" (some "30年"), st.2) else st
    else st
  else st

/-- `_apply_supplementary_rules`: the ordered chain with the period
lock threaded through. -/
def applySupplementaryRules (cs : Consts) (m : Metadata) (ocr : String) : Metadata :=
  if m.isEmpty then m
  else
    let title := pyStrip ((mget m "题名").getD "")
    let content := title ++ " " ++ ocr
    (supRule7
      (supGuard cs title content
        (supRule10 cs content
          (supRule9 cs title
            (supRule8 title
              (supRule6 cs title content
                (supRule5 cs title content
                  (supRule4 cs title content
                    (supRule3 cs content
                      (supRule1 cs title content
                        (supRule2 cs title content (m, false)))))))))))).1

/- ── Priority 2: `_apply_open_status_rules` ───────────────────────────── -/

/-- `_apply_open_status_rules`: reset to open, then the strict
first-match-wins disclosure cascade. -/
def applyOpenStatusRules (cs : Consts) (m : Metadata) (ocr : String) : Metadata :=
  if m.isEmpty then m
  else
    let title := pyStrip ((mget m "题名").getD "")
    let text := ocr
    let m0 := mset (mset m "开放状态" (some "开放")) "延期开放理由" none
    if (match mget m0 "密级" with
        | some s => cs.controlledSecurityLevels.contains s
        | none => false) then
      mset (mset m0 "开放状态" (some "控制")) "延期开放理由" (some "工作秘密")
    else if cs.privacyKws.any (fun k => isSubstr k title || isSubstr k text) then
      mset (mset m0 "开放状态" (some "控制")) "延期开放理由" (some "个人隐私")
    else if cs.commercialKws.any (fun k => isSubstr k title || isSubstr k text) &&
            !(cs.commercialExemptKws.any (fun k => isSubstr k title)) then
      mset (mset m0 "开放状态" (some "控制")) "延期开放理由" (some "商业秘密")
    else if cs.negativeTitleKws.any (fun k => isSubstr k title) then
      mset (mset m0 "开放状态" (some "控制")) "延期开放理由" (some "负面信息")
    else if cs.negativePatterns.any (fun p => p title || p text) then
      mset (mset m0 "开放状态" (some "控制")) "延期开放理由" (some "负面信息")
    else m0

/- ── Orchestrator ─────────────────────────────────────────────────────── -/

/-- `apply_all`: the five-stage pipeline in fixed order. -/
def applyAll (cs : Consts) (m : Metadata) (ocr : String) : Metadata :=
  cleanTitleMeta
    (validateClassificationCode cs
      (applyOpenStatusRules cs
        (applySupplementaryRules cs (forceFixFields cs m) ocr) ocr))

/- ── Claim-side definitions ───────────────────────────────────────────── -/

/-- The stripped title of a record, as every stage computes it. -/
def titleOf (m : Metadata) : String :=
  pyStrip ((mget m "题名").getD "")

/-- The title-plus-text haystack of the supplementary chain. -/
def contentOf (m : Metadata) (ocr : String) : String :=
  titleOf m ++ " " ++ ocr

/-- A transformation either returns its input or strictly shortens it. -/
def Shrinks (f : List Char → List Char) : Prop :=
  ∀ s, f s = s ∨ (f s).length < s.length

/-- The claim-side disclosure cascade: the single deferred-open reason
produced by the first matching condition of the stated priority order
(security-level, privacy, commercial-secret, negative-title,
negative-pattern), `none` when nothing matches.  Written from the
words of the claim, to be compared with `applyOpenStatusRules`. -/
def disclosureReason (cs : Consts) (m : Metadata) (ocr : String) : Option String :=
  let title := titleOf m
  if (match mget m "密级" with
      | some s => cs.controlledSecurityLevels.contains s
      | none => false) then some "工作秘密"
  else if cs.privacyKws.any (fun k => isSubstr k title || isSubstr k ocr) then
    some "个人隐私"
  else if cs.commercialKws.any (fun k => isSubstr k title || isSubstr k ocr) &&
          !(cs.commercialExemptKws.any (fun k => isSubstr k title)) then
    some "商业秘密"
  else if cs.negativeTitleKws.any (fun k => isSubstr k title) then
    some "负面信息"
  else if cs.negativePatterns.any (fun p => p title || p ocr) then
    some "负面信息"
  else none

/-- The claim-side resolution outcome of the code resolver at a given
effective year: resolve the category name and overwrite the code when
the lookup succeeds, leave the record unchanged otherwise. -/
def resolveWith (cs : Consts) (m : Metadata) (year : Int) : Metadata :=
  let expectedCode := resolveCode cs year ((mget m "实体分类名称").getD "")
  if expectedCode ≠ "" then mset m "实体分类号" (some expectedCode) else m

/-- Proper contiguous substring-or-superstring relation on names. -/
def properSubOf (a b : String) : Prop :=
  (isSubstr a b = true ∨ isSubstr b a = true) ∧ a ≠ b

/-- The no-downgrade property of a supplementary step at a state (from
the claim): the step never lowers the retention period in the ordered
domain, a write happens only when the current period is strictly below
thirty years and then writes exactly the thirty-year value, and a
permanent period is never touched. -/
def noDowngradeAt (f : SupState → SupState) (st : SupState) : Prop :=
  periodOrder ((mget (f st).1 "保管期限").getD "") ≥
      periodOrder ((mget st.1 "保管期限").getD "") ∧
  ((mget (f st).1 "保管期限").getD "" ≠ (mget st.1 "保管期限").getD "" →
    periodOrder ((mget st.1 "保管期限").getD "") < periodOrder "30年" ∧
    (mget (f st).1 "保管期限").getD "" = "30年") ∧
  ((mget st.1 "保管期限").getD "" = "永久" →
    (mget (f st).1 "保管期限").getD "" = "永久")

/-- The formation-time year source of the code resolver: the first four
characters of the stripped formation time parsed as an integer, when
the field is truthy and at least four characters long. -/
def formedYear (m : Metadata) : Option Int :=
  if pyStrip ((mget m "文件形成时间").getD "") ≠ "" ∧
      4 ≤ (pyStrip ((mget m "文件形成时间").getD "")).length then
    pyInt (strTake (pyStrip ((mget m "文件形成时间").getD "")) 4)
  else none

/-- The archival-year fallback source of the code resolver. -/
def archivalYear (m : Metadata) : Option Int :=
  pyInt ((mget m "归档年度").getD "")

/- ══ Theorems ══════════════════════════════════════════════════════════ -/

/- ── Record lemmas ────────────────────────────────────────────────────── -/

theorem length_dropWhile_le (p : Char → Bool) (l : List Char) :
    (l.dropWhile p).length ≤ l.length :=
  (List.dropWhile_suffix p).sublist.length_le

theorem mget_mset_self (m : Metadata) (k : String) (v : Option String) :
    mget (mset m k v) k = v := by
  simp [mget, mset]

theorem mget_mset_ne (m : Metadata) (k k' : String) (v : Option String)
    (h : k ≠ k') : mget (mset m k v) k' = mget m k' := by
  simp [mget, mset, h]

/- ── Shrinking of the title-normalizer steps ──────────────────────────── -/

theorem goStrip_some (mm : List Char → Bool) (s p : List Char)
    (h : goStrip mm s = some p) : ∃ q, s = p ++ q ∧ mm q = true := by
  induction s generalizing p with
  | nil =>
    simp only [goStrip] at h
    split at h
    · injection h with h
      subst h
      exact ⟨[], rfl, by assumption⟩
    · exact absurd h (by simp)
  | cons c cs ih =>
    simp only [goStrip] at h
    split at h
    · injection h with h
      subst h
      exact ⟨c :: cs, rfl, by assumption⟩
    · obtain ⟨p2, hp2, rfl⟩ := Option.map_eq_some'.mp h
      obtain ⟨q, hq, hmq⟩ := ih p2 hp2
      exact ⟨q, by simp [hq], hmq⟩

theorem shrinks_comp {f g : List Char → List Char}
    (hf : Shrinks f) (hg : Shrinks g) : Shrinks (fun s => g (f s)) := by
  intro s
  show g (f s) = s ∨ (g (f s)).length < s.length
  rcases hf s with h | h
  · rw [h]
    exact hg s
  · rcases hg (f s) with h2 | h2
    · rw [h2]
      right
      exact h
    · right
      exact h2.trans h

theorem stripEnd_shrinks (mm : List Char → Bool) (hm : mm [] = false) :
    Shrinks (stripEnd mm) := by
  intro s
  unfold stripEnd
  cases hgo : goStrip mm s with
  | none => left; rfl
  | some p =>
    obtain ⟨q, rfl, hmq⟩ := goStrip_some mm s p hgo
    right
    have hq : q ≠ [] := by
      rintro rfl
      rw [hm] at hmq
      cases hmq
    have hpos : 0 < q.length := List.length_pos.mpr hq
    simp only [List.length_append]
    omega

theorem rx1_nil : rx1 [] = false := by decide
theorem rx2_nil : rx2 [] = false := by decide
theorem rx3_nil : rx3 [] = false := by decide
theorem rx6_nil : rx6 [] = false := by decide
theorem rx6b_nil : rx6b [] = false := by decide
theorem rx6c_nil : rx6c [] = false := by decide
theorem rx8a_nil : rx8a [] = false := by decide
theorem rx8b_nil : rx8b [] = false := by decide
theorem rx8c_nil : rx8c [] = false := by decide
theorem rx8d_nil : rx8d [] = false := by decide

theorem titleRule4_shrinks : Shrinks titleRule4 := by
  intro s
  unfold titleRule4
  split
  · split
    · right
      rename_i a b c d e f rest _
      have hd := length_dropWhile_le isPySpace rest
      simp only [List.length_cons]
      omega
    · left; rfl
  · left; rfl

theorem parseMD_length (mark : Char) (s r : List Char)
    (h : parseMD mark s = some r) : r.length + 2 ≤ s.length := by
  unfold parseMD at h
  split at h
  · split at h
    · injection h with h
      subst h
      simp only [List.length_cons]
      omega
    · split at h
      · injection h with h
        subst h
        simp only [List.length_cons]
        omega
      · exact absurd h (by simp)
  · split at h
    · injection h with h
      subst h
      simp only [List.length_cons, List.length_nil]
      omega
    · exact absurd h (by simp)
  · exact absurd h (by simp)

theorem titleRule5core_length (s r : List Char)
    (h : titleRule5core s = some r) : r.length < s.length := by
  unfold titleRule5core at h
  split at h
  · rename_i o d1 d2 d3 d4 y rest
    split at h
    · split at h
      · rename_i r2 h1
        have hl1 := parseMD_length '月' rest r2 h1
        split at h
        · rename_i cb r3 h2
          have hl2 := parseMD_length '日' r2 (cb :: r3) h2
          split at h
          · injection h with h
            subst h
            have hd := length_dropWhile_le isPySpace r3
            simp only [List.length_cons] at hl2 ⊢
            omega
          · exact absurd h (by simp)
        · exact absurd h (by simp)
      · exact absurd h (by simp)
    · exact absurd h (by simp)
  · exact absurd h (by simp)

theorem titleRule5_shrinks : Shrinks titleRule5 := by
  intro s
  unfold titleRule5
  cases h : titleRule5core s with
  | none => left; rfl
  | some r =>
    right
    exact titleRule5core_length s r h

theorem rule7check_le (s : List Char) (b : Nat) (h : rule7check s b = true) :
    2 * b + 2 ≤ s.length := by
  unfold rule7check at h
  split at h
  · cases h
  · rename_i hcond
    omega

theorem titleRule7_shrinks : Shrinks titleRule7 := by
  intro s
  unfold titleRule7
  cases hf : (List.range s.length).find? (fun i => rule7check s (i + 1)) with
  | none => left; rfl
  | some i =>
    right
    have hc : rule7check s (i + 1) = true := by
      have := List.find?_some hf
      simpa using this
    have hle := rule7check_le s (i + 1) hc
    have ht : (s.take (i + 1)).length = min (i + 1) s.length := List.length_take _ _
    show (s.take (i + 1)).length < s.length
    omega

theorem rule9core_length (t r : List Char) (h : rule9core t = some r) :
    r.length < t.length := by
  unfold rule9core at h
  split at h
  · rename_i hds
    split at h
    · rename_i hh sp r2 heq
      split at h
      · injection h with h
        subst h
        have htw := congrArg List.length
          (List.takeWhile_append_dropWhile isDigitC t)
        simp only [List.length_append] at htw
        rw [heq] at htw
        simp only [List.length_cons] at htw
        have hd := length_dropWhile_le isPySpace (sp :: r2)
        simp only [List.length_cons] at hd
        simp only [Bool.and_eq_true, decide_eq_true_eq] at hds
        omega
      · exact absurd h (by simp)
    · exact absurd h (by simp)
  · exact absurd h (by simp)

theorem titleRule9_shrinks : Shrinks titleRule9 := by
  intro s
  cases s with
  | nil => left; rfl
  | cons c cs =>
    simp only [titleRule9]
    cases h9 : rule9core (if c == '第' then cs else c :: cs) with
    | none => left; rfl
    | some r =>
      right
      have hl := rule9core_length _ r h9
      show r.length < (c :: cs).length
      by_cases hcc : (c == '第') = true
      · rw [if_pos hcc] at hl
        simp only [List.length_cons]
        omega
      · rw [if_neg hcc] at hl
        exact hl

theorem titleRule10_shrinks : Shrinks titleRule10 := by
  intro s
  unfold titleRule10
  split
  · rename_i rest
    split
    · rename_i g1h g1t d r3 heq1 heq2
      split
      · right
        have hd := length_dropWhile_le (fun c => !(c == ']')) rest
        rw [heq2] at hd
        simp only [List.length_cons] at hd ⊢
        omega
      · left; rfl
    · left; rfl
  · left; rfl

theorem dropWhile_shrinks (p : Char → Bool) : Shrinks (List.dropWhile p) := by
  intro s
  cases s with
  | nil => left; rfl
  | cons c cs =>
    cases hc : p c with
    | true =>
      right
      have hd := length_dropWhile_le p cs
      simp only [List.dropWhile_cons, hc, if_true, List.length_cons]
      omega
    | false =>
      left
      simp [List.dropWhile_cons, hc]

theorem dropEndWhile_shrinks (p : Char → Bool) : Shrinks (dropEndWhile p) := by
  intro s
  unfold dropEndWhile
  rcases dropWhile_shrinks p s.reverse with h | h
  · left
    rw [h, List.reverse_reverse]
  · right
    simpa using h

theorem pyStripL_shrinks : Shrinks pyStripL := by
  intro s
  exact shrinks_comp (dropWhile_shrinks isPySpace) (dropEndWhile_shrinks isPySpace) s

theorem rule8block_shrinks : Shrinks rule8block := by
  intro s
  unfold rule8block
  split
  · exact shrinks_comp (stripEnd_shrinks rx8a rx8a_nil)
      (shrinks_comp (stripEnd_shrinks rx8b rx8b_nil)
        (shrinks_comp (stripEnd_shrinks rx8c rx8c_nil)
          (stripEnd_shrinks rx8d rx8d_nil))) s
  · left; rfl

theorem cleanTitleSteps_shrinks : Shrinks cleanTitleSteps := by
  intro s
  exact shrinks_comp (stripEnd_shrinks rx1 rx1_nil)
    (shrinks_comp (stripEnd_shrinks rx2 rx2_nil)
      (shrinks_comp (stripEnd_shrinks rx3 rx3_nil)
        (shrinks_comp titleRule4_shrinks
          (shrinks_comp titleRule5_shrinks
            (shrinks_comp (stripEnd_shrinks rx6 rx6_nil)
              (shrinks_comp (stripEnd_shrinks rx6b rx6b_nil)
                (shrinks_comp (stripEnd_shrinks rx6c rx6c_nil)
                  (shrinks_comp titleRule7_shrinks
                    (shrinks_comp rule8block_shrinks
                      (shrinks_comp titleRule9_shrinks
                        (shrinks_comp titleRule10_shrinks
                          pyStripL_shrinks))))))))))) s

/- ── Stage and step preservation lemmas ───────────────────────────────── -/

theorem validate_preserves (cs : Consts) (m : Metadata) (k : String)
    (h : k ≠ "实体分类号") :
    mget (validateClassificationCode cs m) k = mget m k := by
  unfold validateClassificationCode
  split
  · rfl
  · simp only []
    split
    · rfl
    · split
      · exact mget_mset_ne _ _ _ _ (Ne.symm h)
      · rfl

theorem openStatus_preserves (cs : Consts) (m : Metadata) (ocr : String)
    (k : String) (h1 : k ≠ "开放状态") (h2 : k ≠ "延期开放理由") :
    mget (applyOpenStatusRules cs m ocr) k = mget m k := by
  unfold applyOpenStatusRules
  split
  · rfl
  · simp only []
    have e1 := Ne.symm h1
    have e2 := Ne.symm h2
    repeat' split
    all_goals simp [mget, mset, e1, e2]

theorem cleanTitle_preserves (m : Metadata) (k : String) (h : k ≠ "题名") :
    mget (cleanTitleMeta m) k = mget m k := by
  unfold cleanTitleMeta
  split
  · rfl
  · simp only []
    split
    · rfl
    · split
      · rfl
      · exact mget_mset_ne _ _ _ _ (Ne.symm h)

theorem supRule2_preserves (cs : Consts) (title content : String) (st : SupState)
    (k : String) (hk1 : k ≠ "保管期限") (hk2 : k ≠ "实体分类名称")
    (hk3 : k ≠ "实体分类号") :
    mget (supRule2 cs title content st).1 k = mget st.1 k := by
  unfold supRule2
  split
  · simp only []
    rw [validate_preserves cs _ _ hk3]
    split
    · rw [mget_mset_ne _ _ _ _ (Ne.symm hk2), mget_mset_ne _ _ _ _ (Ne.symm hk1)]
    · split <;>
        rw [mget_mset_ne _ _ _ _ (Ne.symm hk2), mget_mset_ne _ _ _ _ (Ne.symm hk1)]
  · rfl

theorem supRule1_spec (cs : Consts) (title content : String) (st : SupState) :
    (supRule1 cs title content st).2 = st.2 ∧
    (st.2 = true →
      mget (supRule1 cs title content st).1 "保管期限" = mget st.1 "保管期限") ∧
    (∀ k, k ≠ "保管期限" → k ≠ "实体分类名称" → k ≠ "实体分类号" →
      mget (supRule1 cs title content st).1 k = mget st.1 k) := by
  unfold supRule1
  simp only []
  split
  · refine ⟨rfl, fun h2 => ?_, fun k hk1 hk2 hk3 => ?_⟩
    · rw [h2]
      simp only [Bool.not_true]
      rw [if_neg (by simp)]
      rw [validate_preserves cs _ _ (by decide),
        mget_mset_ne _ _ _ _ (by decide)]
    · rw [validate_preserves cs _ _ hk3]
      split
      · split
        · rw [mget_mset_ne _ _ _ _ (Ne.symm hk1),
            mget_mset_ne _ _ _ _ (Ne.symm hk2)]
        · rw [mget_mset_ne _ _ _ _ (Ne.symm hk2)]
      · rw [mget_mset_ne _ _ _ _ (Ne.symm hk2)]
  · exact ⟨rfl, fun _ => rfl, fun _ _ _ _ => rfl⟩

theorem supRule3_spec (cs : Consts) (content : String) (st : SupState) :
    (supRule3 cs content st).2 = st.2 ∧
    (st.2 = true →
      mget (supRule3 cs content st).1 "保管期限" = mget st.1 "保管期限") ∧
    (∀ k, k ≠ "保管期限" → k ≠ "实体分类名称" → k ≠ "实体分类号" →
      mget (supRule3 cs content st).1 k = mget st.1 k) := by
  unfold supRule3
  split
  · split
    · rename_i hlock
      refine ⟨rfl, fun h2 => ?_, fun k hk _ _ => ?_⟩
      · rw [h2] at hlock
        simp at hlock
      · exact mget_mset_ne _ _ _ _ (Ne.symm hk)
    · exact ⟨rfl, fun _ => rfl, fun _ _ _ _ => rfl⟩
  · exact ⟨rfl, fun _ => rfl, fun _ _ _ _ => rfl⟩

theorem supRule4_spec (cs : Consts) (title content : String) (st : SupState) :
    (supRule4 cs title content st).2 = st.2 ∧
    (st.2 = true →
      mget (supRule4 cs title content st).1 "保管期限" = mget st.1 "保管期限") ∧
    (∀ k, k ≠ "保管期限" → k ≠ "实体分类名称" → k ≠ "实体分类号" →
      mget (supRule4 cs title content st).1 k = mget st.1 k) := by
  unfold supRule4
  split
  · split
    · split
      · rename_i hlock
        refine ⟨rfl, fun h2 => ?_, fun k hk _ _ => ?_⟩
        · rw [h2] at hlock
          simp at hlock
        · exact mget_mset_ne _ _ _ _ (Ne.symm hk)
      · exact ⟨rfl, fun _ => rfl, fun _ _ _ _ => rfl⟩
    · exact ⟨rfl, fun _ => rfl, fun _ _ _ _ => rfl⟩
  · exact ⟨rfl, fun _ => rfl, fun _ _ _ _ => rfl⟩

theorem supRule5_spec (cs : Consts) (title content : String) (st : SupState) :
    (supRule5 cs title content st).2 = st.2 ∧
    (st.2 = true →
      mget (supRule5 cs title content st).1 "保管期限" = mget st.1 "保管期限") ∧
    (∀ k, k ≠ "保管期限" → k ≠ "实体分类名称" → k ≠ "实体分类号" →
      mget (supRule5 cs title content st).1 k = mget st.1 k) := by
  unfold supRule5
  simp only []
  split
  · split
    · split
      · rename_i hlock
        refine ⟨rfl, fun h2 => ?_, fun k hk _ _ => ?_⟩
        · rw [h2] at hlock
          simp at hlock
        · exact mget_mset_ne _ _ _ _ (Ne.symm hk)
      · exact ⟨rfl, fun _ => rfl, fun _ _ _ _ => rfl⟩
    · exact ⟨rfl, fun _ => rfl, fun _ _ _ _ => rfl⟩
  · exact ⟨rfl, fun _ => rfl, fun _ _ _ _ => rfl⟩

theorem supRule6_spec (cs : Consts) (title content : String) (st : SupState) :
    (supRule6 cs title content st).2 = st.2 ∧
    (st.2 = true →
      mget (supRule6 cs title content st).1 "保管期限" = mget st.1 "保管期限") ∧
    (∀ k, k ≠ "保管期限" → k ≠ "实体分类名称" → k ≠ "实体分类号" →
      mget (supRule6 cs title content st).1 k = mget st.1 k) := by
  unfold supRule6
  simp only []
  split
  · split
    · refine ⟨rfl, fun h2 => ?_, fun k hk1 hk2 hk3 => ?_⟩
      · rw [h2]
        simp only [Bool.not_true]
        rw [if_neg (by simp)]
        rw [validate_preserves cs _ _ (by decide),
          mget_mset_ne _ _ _ _ (by decide)]
      · rw [validate_preserves cs _ _ hk3]
        split
        · rw [mget_mset_ne _ _ _ _ (Ne.symm hk1),
            mget_mset_ne _ _ _ _ (Ne.symm hk2)]
        · rw [mget_mset_ne _ _ _ _ (Ne.symm hk2)]
    · exact ⟨rfl, fun _ => rfl, fun _ _ _ _ => rfl⟩
  · exact ⟨rfl, fun _ => rfl, fun _ _ _ _ => rfl⟩

theorem supRule8_spec (title : String) (st : SupState) :
    (supRule8 title st).2 = st.2 ∧
    (st.2 = true →
      mget (supRule8 title st).1 "保管期限" = mget st.1 "保管期限") ∧
    (∀ k, k ≠ "保管期限" → k ≠ "实体分类名称" → k ≠ "实体分类号" →
      mget (supRule8 title st).1 k = mget st.1 k) := by
  unfold supRule8
  split
  · split
    · rename_i hlock
      refine ⟨rfl, fun h2 => ?_, fun k hk _ _ => ?_⟩
      · rw [h2] at hlock
        simp at hlock
      · exact mget_mset_ne _ _ _ _ (Ne.symm hk)
    · exact ⟨rfl, fun _ => rfl, fun _ _ _ _ => rfl⟩
  · exact ⟨rfl, fun _ => rfl, fun _ _ _ _ => rfl⟩

theorem supRule9_spec (cs : Consts) (title : String) (st : SupState) :
    (supRule9 cs title st).2 = st.2 ∧
    (st.2 = true →
      mget (supRule9 cs title st).1 "保管期限" = mget st.1 "保管期限") ∧
    (∀ k, k ≠ "保管期限" → k ≠ "实体分类名称" → k ≠ "实体分类号" →
      mget (supRule9 cs title st).1 k = mget st.1 k) := by
  unfold supRule9
  split
  · split
    · rename_i hlock
      refine ⟨rfl, fun h2 => ?_, fun k hk _ _ => ?_⟩
      · rw [h2] at hlock
        simp at hlock
      · exact mget_mset_ne _ _ _ _ (Ne.symm hk)
    · exact ⟨rfl, fun _ => rfl, fun _ _ _ _ => rfl⟩
  · exact ⟨rfl, fun _ => rfl, fun _ _ _ _ => rfl⟩

theorem supRule10_spec (cs : Consts) (content : String) (st : SupState) :
    (supRule10 cs content st).2 = st.2 ∧
    (st.2 = true →
      mget (supRule10 cs content st).1 "保管期限" = mget st.1 "保管期限") ∧
    (∀ k, k ≠ "保管期限" → k ≠ "实体分类名称" → k ≠ "实体分类号" →
      mget (supRule10 cs content st).1 k = mget st.1 k) := by
  unfold supRule10
  simp only []
  split
  · split
    · refine ⟨rfl, fun h2 => ?_, fun k hk1 hk2 hk3 => ?_⟩
      · rw [h2]
        simp only [Bool.not_true]
        rw [if_neg (by simp)]
        rw [validate_preserves cs _ _ (by decide),
          mget_mset_ne _ _ _ _ (by decide)]
      · rw [validate_preserves cs _ _ hk3]
        split
        · rw [mget_mset_ne _ _ _ _ (Ne.symm hk1),
            mget_mset_ne _ _ _ _ (Ne.symm hk2)]
        · rw [mget_mset_ne _ _ _ _ (Ne.symm hk2)]
    · exact ⟨rfl, fun _ => rfl, fun _ _ _ _ => rfl⟩
  · exact ⟨rfl, fun _ => rfl, fun _ _ _ _ => rfl⟩

theorem supGuard_spec (cs : Consts) (title content : String) (st : SupState) :
    (supGuard cs title content st).2 = st.2 ∧
    (st.2 = true →
      mget (supGuard cs title content st).1 "保管期限" = mget st.1 "保管期限") ∧
    (∀ k, k ≠ "保管期限" → k ≠ "实体分类名称" → k ≠ "实体分类号" →
      mget (supGuard cs title content st).1 k = mget st.1 k) := by
  unfold supGuard
  split
  · split
    · split
      · refine ⟨rfl, fun h2 => ?_, fun k hk1 hk2 hk3 => ?_⟩
        · rw [validate_preserves cs _ _ (by decide),
            mget_mset_ne _ _ _ _ (by decide)]
        · rw [validate_preserves cs _ _ hk3,
            mget_mset_ne _ _ _ _ (Ne.symm hk2)]
      · exact ⟨rfl, fun _ => rfl, fun _ _ _ _ => rfl⟩
    · exact ⟨rfl, fun _ => rfl, fun _ _ _ _ => rfl⟩
  · exact ⟨rfl, fun _ => rfl, fun _ _ _ _ => rfl⟩

theorem supRule7_spec (st : SupState) :
    (supRule7 st).2 = st.2 ∧
    (st.2 = true → mget (supRule7 st).1 "保管期限" = mget st.1 "保管期限") ∧
    (∀ k, k ≠ "保管期限" → k ≠ "实体分类名称" → k ≠ "实体分类号" →
      mget (supRule7 st).1 k = mget st.1 k) := by
  unfold supRule7
  split
  · split
    · split
      · rename_i hlock
        refine ⟨rfl, fun h2 => ?_, fun k hk _ _ => ?_⟩
        · rw [h2] at hlock
          simp at hlock
        · exact mget_mset_ne _ _ _ _ (Ne.symm hk)
      · exact ⟨rfl, fun _ => rfl, fun _ _ _ _ => rfl⟩
    · exact ⟨rfl, fun _ => rfl, fun _ _ _ _ => rfl⟩
  · exact ⟨rfl, fun _ => rfl, fun _ _ _ _ => rfl⟩

/-- Chaining helper: a step that preserves the lock and, under the
lock, the retention period, preserves the locked ten-year state. -/
theorem lockStep (f : SupState → SupState) (st : SupState)
    (hf1 : (f st).2 = st.2)
    (hf2 : st.2 = true → mget (f st).1 "保管期限" = mget st.1 "保管期限")
    (h : st.2 = true ∧ mget st.1 "保管期限" = some "10年") :
    (f st).2 = true ∧ mget (f st).1 "保管期限" = some "10年" :=
  ⟨hf1.trans h.1, (hf2 h.1).trans h.2⟩

theorem supRule2_fire (cs : Consts) (title content : String) (st : SupState)
    (h : isSubstr "简报" title = true) :
    (supRule2 cs title content st).2 = true ∧
    mget (supRule2 cs title content st).1 "保管期限" = some "10年" := by
  unfold supRule2
  rw [if_pos h]
  refine ⟨rfl, ?_⟩
  simp only []
  rw [validate_preserves cs _ _ (by decide)]
  split
  · rw [mget_mset_ne _ _ _ _ (by decide), mget_mset_self]
  · split <;> rw [mget_mset_ne _ _ _ _ (by decide), mget_mset_self]

theorem supChain_locked (cs : Consts) (title content : String) (st : SupState)
    (h : st.2 = true ∧ mget st.1 "保管期限" = some "10年") :
    mget (supRule7 (supGuard cs title content (supRule10 cs content (supRule9 cs title
      (supRule8 title (supRule6 cs title content (supRule5 cs title content
      (supRule4 cs title content (supRule3 cs content
      (supRule1 cs title content st)))))))))).1 "保管期限" = some "10年" := by
  have h1 := lockStep _ st (supRule1_spec cs title content st).1
    (supRule1_spec cs title content st).2.1 h
  have h2 := lockStep _ _ (supRule3_spec cs content _).1
    (supRule3_spec cs content _).2.1 h1
  have h3 := lockStep _ _ (supRule4_spec cs title content _).1
    (supRule4_spec cs title content _).2.1 h2
  have h4 := lockStep _ _ (supRule5_spec cs title content _).1
    (supRule5_spec cs title content _).2.1 h3
  have h5 := lockStep _ _ (supRule6_spec cs title content _).1
    (supRule6_spec cs title content _).2.1 h4
  have h6 := lockStep _ _ (supRule8_spec title _).1
    (supRule8_spec title _).2.1 h5
  have h7 := lockStep _ _ (supRule9_spec cs title _).1
    (supRule9_spec cs title _).2.1 h6
  have h8 := lockStep _ _ (supRule10_spec cs content _).1
    (supRule10_spec cs content _).2.1 h7
  have h9 := lockStep _ _ (supGuard_spec cs title content _).1
    (supGuard_spec cs title content _).2.1 h8
  have h10 := lockStep _ _ (supRule7_spec _).1 (supRule7_spec _).2.1 h9
  exact h10.2

/- ── C2: period lock monotonicity ─────────────────────────────────────── -/

/-- C2: when the briefing rule fires (the stripped title contains the
briefing marker), the retention period is ten years immediately after
that rule, still ten years after the whole supplementary chain for any
combination of other rule triggers (arbitrary keyword tables, record
and raw text), and unchanged by the later disclosure, code-validation
and title-cleanup stages of the same invocation. -/
theorem c2_briefing_period_locked (cs : Consts) (m : Metadata) (ocr : String)
    (hne : m.isEmpty = false)
    (hbr : isSubstr "简报" (titleOf m) = true) :
    mget ((supRule2 cs (titleOf m) (contentOf m ocr) (m, false)).1) "保管期限"
        = some "10年" ∧
    mget (applySupplementaryRules cs m ocr) "保管期限" = some "10年" ∧
    mget (cleanTitleMeta (validateClassificationCode cs
        (applyOpenStatusRules cs (applySupplementaryRules cs m ocr) ocr)))
      "保管期限" = some "10年" := by
  have hfire := supRule2_fire cs (titleOf m) (contentOf m ocr) (m, false) hbr
  have hsup : mget (applySupplementaryRules cs m ocr) "保管期限" = some "10年" := by
    unfold applySupplementaryRules
    rw [if_neg (by simp [hne])]
    simp only []
    exact supChain_locked cs (titleOf m) (contentOf m ocr) _ ⟨hfire.1, hfire.2⟩
  refine ⟨hfire.2, hsup, ?_⟩
  rw [cleanTitle_preserves _ _ (by decide),
    validate_preserves _ _ _ (by decide),
    openStatus_preserves _ _ _ _ (by decide) (by decide)]
  exact hsup

/-- C2 witness: a concrete briefing record evaluated through the
supplementary chain at the concrete constants. -/
theorem c2_briefing_period_locked_witness :
    ([("题名", some "工作简报")] : Metadata).isEmpty = false ∧
    isSubstr "简报" (titleOf [("题名", some "工作简报")]) = true ∧
    mget (applySupplementaryRules defaultConsts [("题名", some "工作简报")] "")
      "保管期限" = some "10年" :=
  ⟨by decide, by decide,
    (c2_briefing_period_locked defaultConsts [("题名", some "工作简报")] ""
      (by decide) (by decide)).2.1⟩

/- ── C3: Scenario D ───────────────────────────────────────────────────── -/

/-- C3 counterexample: one application of the title normalizer on the
Scenario D title does not produce the claimed final title: the
duplicate-suffix rule runs before the bare-number prefix rule, so the
prefix removal only exposes the duplicated suffix for a later pass. -/
theorem c3_counterexample_scenario_d :
    normalizeTitle "[2020]1号 关于印发《考勤管理办法》的通知[关于印发《考勤管理办法》的通知]" ≠
      "关于印发《考勤管理办法》的通知" := by
  decide

/-- C3 (amended): on the Scenario D title, one application of the
normalizer removes the numeric-annotation prefix but retains the
duplicated bracketed suffix; a second application removes that suffix,
reaching exactly the claimed final title. -/
theorem c3_amended_scenario_d_two_passes :
    normalizeTitle "[2020]1号 关于印发《考勤管理办法》的通知[关于印发《考勤管理办法》的通知]" =
      "关于印发《考勤管理办法》的通知[关于印发《考勤管理办法》的通知]" ∧
    normalizeTitle (normalizeTitle
      "[2020]1号 关于印发《考勤管理办法》的通知[关于印发《考勤管理办法》的通知]") =
      "关于印发《考勤管理办法》的通知" :=
  ⟨by decide, by decide⟩

/- ── C1: idempotence of the title normalizer ──────────────────────────── -/

/-- C1 counterexample: the title normalizer is not idempotent.  On
"X[123456][1234567]" one application strips only the outermost trailing
bracketed date, so a second application changes the title again. -/
theorem c1_counterexample_not_idempotent :
    normalizeTitle (normalizeTitle "X[123456][1234567]") ≠
      normalizeTitle "X[123456][1234567]" := by
  decide

/-- C1 (amended): the title normalizer is not idempotent in general;
what holds is that every application of the normalizer either returns
the title unchanged or strictly shortens it, so repeated application
reaches a fixed point after at most length-many rounds. -/
theorem c1_amended_normalize_title_shrinks (t : String) :
    normalizeTitle t = t ∨ (normalizeTitle t).length < t.length := by
  obtain ⟨l⟩ := t
  have h := shrinks_comp pyStripL_shrinks cleanTitleSteps_shrinks l
  rcases h with h | h
  · left
    unfold normalizeTitle
    simp only at h
    rw [h]
  · right
    unfold normalizeTitle
    simpa using h


/- ── C4 / C5: the field sanitizer ─────────────────────────────────────── -/

theorem forceNullStep_other (m : Metadata) (g f : String) (h : g ≠ f) :
    mget (forceNullStep m g) f = mget m f := by
  unfold forceNullStep
  split
  · exact mget_mset_ne _ _ _ _ h
  · rfl

theorem forceNullStep_none (m : Metadata) (g f : String)
    (h : mget m f = none) : mget (forceNullStep m g) f = none := by
  unfold forceNullStep
  by_cases hg : g = f
  · subst hg
    simp [h, truthy]
  · split
    · rw [mget_mset_ne _ _ _ _ hg]
      exact h
    · exact h

theorem foldl_forceNull_none (l : List String) (f : String) :
    ∀ m : Metadata, mget m f = none →
      mget (l.foldl forceNullStep m) f = none := by
  induction l with
  | nil => exact fun m h => h
  | cons g rest ih =>
    intro m h
    simp only [List.foldl_cons]
    exact ih _ (forceNullStep_none m g f h)

theorem foldl_forceNull_notmem (l : List String) (f : String) :
    ∀ m : Metadata, f ∉ l →
      mget (l.foldl forceNullStep m) f = mget m f := by
  induction l with
  | nil => exact fun m _ => rfl
  | cons g rest ih =>
    intro m hf
    simp only [List.foldl_cons]
    have hg : g ≠ f := fun hgf => hf (hgf ▸ List.mem_cons_self g rest)
    rw [ih _ (fun hm => hf (List.mem_cons_of_mem g hm)),
      forceNullStep_other m g f hg]

theorem foldl_forceNull_mem (l : List String) (f : String) :
    ∀ m : Metadata, f ∈ l → truthy (mget m f) = true →
      mget m f ≠ some "null" →
      mget (l.foldl forceNullStep m) f = none := by
  induction l with
  | nil => exact fun m hf _ _ => absurd hf (List.not_mem_nil f)
  | cons g rest ih =>
    intro m hf hv hn
    simp only [List.foldl_cons]
    by_cases hg : g = f
    · subst hg
      apply foldl_forceNull_none
      unfold forceNullStep
      rw [if_pos]
      · exact mget_mset_self _ _ _
      · rw [hv, beq_eq_false_iff_ne.mpr hn]
        rfl
    · rcases List.mem_cons.mp hf with hgf | hmem
      · exact absurd hgf.symm hg
      · have hv2 : truthy (mget (forceNullStep m g) f) = true := by
          rw [forceNullStep_other m g f hg]
          exact hv
        have hn2 : mget (forceNullStep m g) f ≠ some "null" := by
          rw [forceNullStep_other m g f hg]
          exact hn
        exact ih _ hmem hv2 hn2

theorem fixFilingUnit_preserves (m : Metadata) (k : String)
    (h : k ≠ "立档单位名称") : mget (fixFilingUnit m) k = mget m k := by
  unfold fixFilingUnit
  split
  · exact mget_mset_ne _ _ _ _ (Ne.symm h)
  · rfl

theorem fixSecurityLevel_preserves (m : Metadata) (k : String)
    (h1 : k ≠ "密级") (h2 : k ≠ "保密期限") :
    mget (fixSecurityLevel m) k = mget m k := by
  unfold fixSecurityLevel
  split
  · split
    · rw [mget_mset_ne _ _ _ _ (Ne.symm h2), mget_mset_ne _ _ _ _ (Ne.symm h1)]
    · rfl
  · rfl

theorem fixSecurityLevel_invalid (m : Metadata) (lv : String)
    (hlv : mget m "密级" = some lv) (hne : lv ≠ "")
    (hdom : lv ∉ ["非涉密", "内部", "秘密", "机密", "绝密"]) :
    mget (fixSecurityLevel m) "密级" = none ∧
    mget (fixSecurityLevel m) "保密期限" = none := by
  unfold fixSecurityLevel
  simp only [hlv]
  rw [if_pos (by simp [hne, hdom])]
  constructor
  · rw [mget_mset_ne _ _ _ _ (by decide), mget_mset_self]
  · exact mget_mset_self _ _ _

theorem fixSecurityLevel_period_cases (m : Metadata) :
    mget (fixSecurityLevel m) "保密期限" = none ∨
    mget (fixSecurityLevel m) "保密期限" = mget m "保密期限" := by
  unfold fixSecurityLevel
  split
  · split
    · left
      exact mget_mset_self _ _ _
    · right
      rfl
  · right
    rfl

theorem fixSecurityPeriod_preserves (m : Metadata) (k : String)
    (h : k ≠ "保密期限") : mget (fixSecurityPeriod m) k = mget m k := by
  unfold fixSecurityPeriod
  split
  · split
    · exact mget_mset_ne _ _ _ _ (Ne.symm h)
    · rfl
  · rfl

theorem fixSecurityPeriod_stays_none (m : Metadata)
    (h : mget m "保密期限" = none) :
    mget (fixSecurityPeriod m) "保密期限" = none := by
  unfold fixSecurityPeriod
  simp only [h]

theorem fixSecurityPeriod_invalid (m : Metadata) (p : String)
    (hp : mget m "保密期限" = some p) (hne : p ≠ "")
    (hdom : p ∉ ["1年", "5年", "10年"]) :
    mget (fixSecurityPeriod m) "保密期限" = none := by
  unfold fixSecurityPeriod
  simp only [hp]
  rw [if_pos (by simp [hne, hdom])]
  exact mget_mset_self _ _ _

theorem supStage_preserves (cs : Consts) (m : Metadata) (ocr : String)
    (k : String) (hk1 : k ≠ "保管期限") (hk2 : k ≠ "实体分类名称")
    (hk3 : k ≠ "实体分类号") :
    mget (applySupplementaryRules cs m ocr) k = mget m k := by
  unfold applySupplementaryRules
  split
  · rfl
  · simp only []
    rw [(supRule7_spec _).2.2 k hk1 hk2 hk3,
      (supGuard_spec cs _ _ _).2.2 k hk1 hk2 hk3,
      (supRule10_spec cs _ _).2.2 k hk1 hk2 hk3,
      (supRule9_spec cs _ _).2.2 k hk1 hk2 hk3,
      (supRule8_spec _ _).2.2 k hk1 hk2 hk3,
      (supRule6_spec cs _ _ _).2.2 k hk1 hk2 hk3,
      (supRule5_spec cs _ _ _).2.2 k hk1 hk2 hk3,
      (supRule4_spec cs _ _ _).2.2 k hk1 hk2 hk3,
      (supRule3_spec cs _ _).2.2 k hk1 hk2 hk3,
      (supRule1_spec cs _ _ _).2.2 k hk1 hk2 hk3,
      supRule2_preserves cs _ _ _ k hk1 hk2 hk3]

/-- C4 counterexample: a forced-null field whose extracted value is the
literal string "null" is left holding that string by the sanitizer
(the loop skips it), so the field does not end up null. -/
theorem c4_counterexample_literal_null :
    mget (forceFixFields defaultConsts [("组织机构代码", some "null")])
        "组织机构代码" ≠ none := by
  decide

/-- C4 (amended): for every field of the forced-null set that is not
one of the fields the pipeline itself writes, the sanitizer (and hence
the whole pipeline) nulls the field whenever the extractor supplied a
truthy value other than the literal string "null"; empty-string and
literal-"null" values are left in place as already-empty
representations. -/
theorem c4_amended_force_null_fields (cs : Consts) (m : Metadata)
    (ocr : String) (f : String) (hne : m.isEmpty = false)
    (hf : f ∈ cs.forceNullFields)
    (hw : f ∉ ["立档单位名称", "密级", "保密期限", "保管期限", "实体分类名称",
      "实体分类号", "开放状态", "延期开放理由", "题名"])
    (hv : truthy (mget m f) = true) (hn : mget m f ≠ some "null") :
    mget (forceFixFields cs m) f = none ∧
    mget (applyAll cs m ocr) f = none := by
  simp only [List.mem_cons, List.not_mem_nil, or_false, not_or] at hw
  obtain ⟨w1, w2, w3, w4, w5, w6, w7, w8, w9⟩ := hw
  have hfix : mget (forceFixFields cs m) f = none := by
    unfold forceFixFields
    rw [if_neg (by simp [hne])]
    rw [fixSecurityPeriod_preserves _ _ w3,
      fixSecurityLevel_preserves _ _ w2 w3,
      fixFilingUnit_preserves _ _ w1]
    exact foldl_forceNull_mem cs.forceNullFields f m hf hv hn
  refine ⟨hfix, ?_⟩
  unfold applyAll
  rw [cleanTitle_preserves _ _ w9,
    validate_preserves _ _ _ w6,
    openStatus_preserves _ _ _ _ w7 w8,
    supStage_preserves _ _ _ _ w4 w5 w6]
  exact hfix

/-- C4 witness: a concrete forced-null field nulled through sanitizer
and pipeline at the concrete constants. -/
theorem c4_amended_force_null_fields_witness :
    ("组织机构代码" ∈ defaultConsts.forceNullFields) ∧
    mget (forceFixFields defaultConsts [("组织机构代码", some "X123")])
      "组织机构代码" = none ∧
    mget (applyAll defaultConsts [("组织机构代码", some "X123")] "")
      "组织机构代码" = none := by
  have h := c4_amended_force_null_fields defaultConsts
    [("组织机构代码", some "X123")] "" "组织机构代码" (by decide) (by decide)
    (by decide) (by decide) (by decide)
  exact ⟨by decide, h.1, h.2⟩

/-- C5 counterexample: an empty-string security level is non-null and
outside the valid enumerated set, yet the sanitizer leaves it in place
(the truthiness guard skips empty strings), so the field is not set to
null as claimed. -/
theorem c5_counterexample_empty_level :
    mget (forceFixFields defaultConsts [("密级", some "")]) "密级" ≠ none := by
  decide

/-- C5 (amended): a non-empty security level outside the valid set
forces both the security level and the secrecy period to null in the
same call; independently, a non-empty secrecy period outside its set
is forced to null; an empty-string value is left unchanged (treated as
already null).  Stated for any forced-null table not containing the
two security fields themselves. -/
theorem c5_amended_security_cascade (cs : Consts) (m : Metadata)
    (hne : m.isEmpty = false)
    (hfn1 : "密级" ∉ cs.forceNullFields)
    (hfn2 : "保密期限" ∉ cs.forceNullFields) :
    (∀ lv, mget m "密级" = some lv → lv ≠ "" →
      lv ∉ ["非涉密", "内部", "秘密", "机密", "绝密"] →
      mget (forceFixFields cs m) "密级" = none ∧
      mget (forceFixFields cs m) "保密期限" = none) ∧
    (∀ p, mget m "保密期限" = some p → p ≠ "" →
      p ∉ ["1年", "5年", "10年"] →
      mget (forceFixFields cs m) "保密期限" = none) := by
  have hff : forceFixFields cs m =
      fixSecurityPeriod (fixSecurityLevel (fixFilingUnit
        (cs.forceNullFields.foldl forceNullStep m))) := by
    unfold forceFixFields
    rw [if_neg (by simp [hne])]
  have hlev : mget (fixFilingUnit (cs.forceNullFields.foldl forceNullStep m))
      "密级" = mget m "密级" := by
    rw [fixFilingUnit_preserves _ _ (by decide),
      foldl_forceNull_notmem cs.forceNullFields "密级" m hfn1]
  have hper : mget (fixFilingUnit (cs.forceNullFields.foldl forceNullStep m))
      "保密期限" = mget m "保密期限" := by
    rw [fixFilingUnit_preserves _ _ (by decide),
      foldl_forceNull_notmem cs.forceNullFields "保密期限" m hfn2]
  constructor
  · intro lv hlv hlvne hlvdom
    have hinv := fixSecurityLevel_invalid _ lv (hlev.trans hlv) hlvne hlvdom
    rw [hff]
    constructor
    · rw [fixSecurityPeriod_preserves _ _ (by decide)]
      exact hinv.1
    · exact fixSecurityPeriod_stays_none _ hinv.2
  · intro p hp hpne hpdom
    rw [hff]
    rcases fixSecurityLevel_period_cases
        (fixFilingUnit (cs.forceNullFields.foldl forceNullStep m)) with hc | hc
    · exact fixSecurityPeriod_stays_none _ hc
    · exact fixSecurityPeriod_invalid _ p (hc.trans (hper.trans hp)) hpne hpdom

/-- C5 witness: an out-of-domain security level cascades both security
fields to null on a concrete record. -/
theorem c5_amended_security_cascade_witness :
    (([("密级", some "机密X"), ("保密期限", some "5年")] : Metadata).isEmpty
      = false) ∧
    mget (forceFixFields defaultConsts
      [("密级", some "机密X"), ("保密期限", some "5年")]) "密级" = none ∧
    mget (forceFixFields defaultConsts
      [("密级", some "机密X"), ("保密期限", some "5年")]) "保密期限" = none := by
  have h := (c5_amended_security_cascade defaultConsts
    [("密级", some "机密X"), ("保密期限", some "5年")] (by decide) (by decide)
    (by decide)).1 "机密X" (by decide) (by decide) (by decide)
  exact ⟨by decide, h.1, h.2⟩


/- ── C7: no-downgrade of the escalation and training rules ────────────── -/

/-- C7: for every state whose current retention period lies in the
ordered period domain, the internal-training rule and the file-number
escalation rule never lower the retention period: each writes only
when the current period is strictly below thirty years in the ordered
domain, then writes exactly the thirty-year value, and neither ever
touches a permanent period. -/
theorem c7_no_downgrade (cs : Consts) (title content : String) (st : SupState)
    (_hdom : (mget st.1 "保管期限").getD "" ∈
      ["1年", "5年", "10年", "30年", "永久"]) :
    noDowngradeAt (supRule1 cs title content) st ∧ noDowngradeAt supRule7 st := by
  constructor
  · unfold noDowngradeAt supRule1
    simp only []
    split
    · rw [validate_preserves cs _ _ (by decide)]
      split
      · split
        · rename_i hguard
          rw [mget_mset_ne _ _ _ _ (by decide)] at hguard
          rw [mget_mset_self]
          refine ⟨?_, fun _ => ⟨hguard, rfl⟩, ?_⟩
          · simp only [Option.getD_some]
            omega
          · intro hperm
            rw [hperm] at hguard
            simp [periodOrder] at hguard
        · rw [mget_mset_ne _ _ _ _ (by decide)]
          exact ⟨le_refl _, fun h => absurd rfl h, fun h => h⟩
      · rw [mget_mset_ne _ _ _ _ (by decide)]
        exact ⟨le_refl _, fun h => absurd rfl h, fun h => h⟩
    · exact ⟨le_refl _, fun h => absurd rfl h, fun h => h⟩
  · unfold noDowngradeAt supRule7
    split
    · split
      · split
        · rename_i hguard hlock
          rw [mget_mset_self]
          refine ⟨?_, fun _ => ⟨hguard, rfl⟩, ?_⟩
          · simp only [Option.getD_some]
            omega
          · intro hperm
            rw [hperm] at hguard
            simp [periodOrder] at hguard
        · exact ⟨le_refl _, fun h => absurd rfl h, fun h => h⟩
      · exact ⟨le_refl _, fun h => absurd rfl h, fun h => h⟩
    · exact ⟨le_refl _, fun h => absurd rfl h, fun h => h⟩

/-- C7 witness: the escalation rule raises a concrete ten-year record
to thirty years and the training rule behaves likewise at the concrete
constants. -/
theorem c7_no_downgrade_witness :
    ((mget ([("保管期限", some "10年"), ("文件编号", some "A1")] : Metadata)
      "保管期限").getD "" ∈ ["1年", "5年", "10年", "30年", "永久"]) ∧
    noDowngradeAt supRule7
      ([("保管期限", some "10年"), ("文件编号", some "A1")], false) :=
  ⟨by decide, (c7_no_downgrade defaultConsts "培训" "培训"
    ([("保管期限", some "10年"), ("文件编号", some "A1")], false)
    (by decide)).2⟩

/- ── C10: the file-number absence convention ──────────────────────────── -/

/-- C10: a file-number value that is null, empty or whitespace-only, or
the literal string "null" counts as absent in both the generic-notice
rule and the escalation rule: the escalation rule is then a no-op, and
the notice rule can fire (writing the ten-year period when unlocked,
the title holds the notice marker, and no importance keyword matches);
any other non-empty string counts as a present file number. -/
theorem c10_file_number_convention (cs : Consts) (title content : String)
    (st : SupState) (v : Option String) :
    (hasNumber v = false ↔
      v = none ∨ (∃ s, v = some s ∧ pyStrip s = "") ∨ v = some "null") ∧
    (mget st.1 "文件编号" = v → hasNumber v = false → supRule7 st = st) ∧
    (mget st.1 "文件编号" = v → hasNumber v = false → st.2 = false →
      isSubstr "通知" title = true →
      cs.importantNoticeKws.any (fun k => isSubstr k content) = false →
      mget (supRule5 cs title content st).1 "保管期限" = some "10年") := by
  refine ⟨?_, ?_, ?_⟩
  · cases v with
    | none => simp [hasNumber]
    | some s =>
      simp only [hasNumber, Bool.and_eq_false_iff, bne_eq_false_iff_eq,
        Option.some.injEq, reduceCtorEq, false_or, exists_eq_left']
      constructor
      · rintro ((h | h) | h)
        · subst h
          exact Or.inl rfl
        · exact Or.inl h
        · exact Or.inr h
      · rintro (h | h)
        · exact Or.inl (Or.inr h)
        · exact Or.inr h
  · intro hv hfalse
    unfold supRule7
    rw [hv, if_neg (by simp [hfalse])]
  · intro hv hfalse hlock htitle himp
    unfold supRule5
    rw [if_pos htitle]
    simp only []
    rw [hv, hfalse, himp, if_pos (by decide), hlock, if_pos (by decide)]
    exact mget_mset_self _ _ _

/-- C10 witness: a whitespace-only file number lets the notice rule
fire on a concrete record, and the escalation rule is a no-op there. -/
theorem c10_file_number_convention_witness :
    hasNumber (some "   ") = false ∧
    mget (supRule5 defaultConsts "一般通知" "一般通知 x"
      ([("题名", some "一般通知"), ("文件编号", some "   ")], false)).1
      "保管期限" = some "10年" :=
  ⟨by decide, (c10_file_number_convention defaultConsts "一般通知" "一般通知 x"
    ([("题名", some "一般通知"), ("文件编号", some "   ")], false)
    (some "   ")).2.2 (by decide) (by decide) (by decide) (by decide)
    (by decide)⟩


/- ── C6: disclosure first-match-wins ──────────────────────────────────── -/

/-- C6: the disclosure classifier first resets the open status to open
and the deferred reason to null, and then the resulting deferred reason
is exactly the one of the highest-priority matching condition in the
order security-level, privacy, commercial-secret, negative-title,
negative-pattern (first match wins), with the open status controlled
exactly when some condition matched. -/
theorem c6_open_status_first_match (cs : Consts) (m : Metadata) (ocr : String)
    (hne : m.isEmpty = false) :
    mget (applyOpenStatusRules cs m ocr) "延期开放理由" =
      disclosureReason cs m ocr ∧
    mget (applyOpenStatusRules cs m ocr) "开放状态" =
      some (if disclosureReason cs m ocr = none then "开放" else "控制") := by
  unfold applyOpenStatusRules disclosureReason
  rw [if_neg (by simp [hne])]
  simp only [titleOf]
  have hsec : mget (mset (mset m "开放状态" (some "开放")) "延期开放理由" none)
      "密级" = mget m "密级" := by
    rw [mget_mset_ne _ _ _ _ (by decide), mget_mset_ne _ _ _ _ (by decide)]
  rw [hsec]
  constructor <;>
    · repeat' split
      all_goals simp_all [mget, mset]

/-- C6 witness: a record matching both a privacy keyword and a
commercial keyword reports only the higher-priority privacy reason. -/
theorem c6_open_status_first_match_witness :
    (([("题名", some "工资表 合同")] : Metadata).isEmpty = false) ∧
    mget (applyOpenStatusRules defaultConsts [("题名", some "工资表 合同")] "")
        "延期开放理由" =
      disclosureReason defaultConsts [("题名", some "工资表 合同")] "" ∧
    disclosureReason defaultConsts [("题名", some "工资表 合同")] "" =
      some "个人隐私" :=
  ⟨by decide,
    (c6_open_status_first_match defaultConsts [("题名", some "工资表 合同")] ""
      (by decide)).1,
    by decide⟩

/- ── C8: exact-match code resolution ──────────────────────────────────── -/

theorem lookupStr_mem (l : List (String × String)) (n c : String)
    (h : lookupStr l n = some c) : (n, c) ∈ l := by
  induction l with
  | nil => cases h
  | cons p rest ih =>
    obtain ⟨k, v⟩ := p
    unfold lookupStr at h
    split at h
    · rename_i hk
      injection h with h
      subst hk h
      exact List.mem_cons_self _ _
    · exact List.mem_cons_of_mem _ (ih h)

/-- C8: the code resolver selects the new table exactly when the
effective year reaches the cutoff and looks the category name up by
exact key equality only, so a category name that is a proper
sub-or-superstring of a table key (and differs from it) never resolves
to the code of that key when table codes are distinct and nonempty; and a
name matching no key at all leaves the classification code unchanged
through the validator. -/
theorem c8_exact_match_resolution (cs : Consts) (year : Int)
    (name key code : String)
    (hmem : (key, code) ∈
      (if year ≥ cs.codeSwitchYear then cs.codeNew else cs.codeOld))
    (hsub : properSubOf name key)
    (hnodup : (List.map Prod.snd
      (if year ≥ cs.codeSwitchYear then cs.codeNew else cs.codeOld)).Nodup)
    (hfull : ∀ p ∈ (if year ≥ cs.codeSwitchYear then cs.codeNew
      else cs.codeOld), p.2 ≠ "") :
    resolveCode cs year name =
      (lookupStr (if year ≥ cs.codeSwitchYear then cs.codeNew else cs.codeOld)
        name).getD "" ∧
    resolveCode cs year name ≠ code ∧
    (∀ m : Metadata, m.isEmpty = false →
      (mget m "实体分类名称").getD "" = name →
      lookupStr cs.codeNew name = none → lookupStr cs.codeOld name = none →
      mget (validateClassificationCode cs m) "实体分类号" =
        mget m "实体分类号") := by
  refine ⟨rfl, ?_, ?_⟩
  · unfold resolveCode
    simp only []
    cases hl : lookupStr
        (if year ≥ cs.codeSwitchYear then cs.codeNew else cs.codeOld) name with
    | none =>
      simp only [Option.getD_none]
      exact fun h => hfull (key, code) hmem h.symm
    | some c =>
      simp only [Option.getD_some]
      intro hcc
      subst hcc
      have hmem2 := lookupStr_mem _ _ _ hl
      have := List.inj_on_of_nodup_map hnodup hmem2 hmem rfl
      exact hsub.2 (congrArg Prod.fst this)
  · intro m2 hme hcat hn1 hn2
    unfold validateClassificationCode
    rw [if_neg (by simp [hme])]
    simp only []
    split
    · rfl
    · rename_i y hy
      rw [hcat]
      unfold resolveCode
      simp only []
      split
      · rw [hn1]
        simp
      · rw [hn2]
        simp

/-- C8 witness: the category name 档案业务类 is a proper superstring of
the table key 业务类 yet does not resolve to the code of that key in the
concrete new-year table. -/
theorem c8_exact_match_resolution_witness :
    (("业务类", "Y3") ∈ (if (2024 : Int) ≥ defaultConsts.codeSwitchYear
      then defaultConsts.codeNew else defaultConsts.codeOld)) ∧
    resolveCode defaultConsts 2024 "档案业务类" ≠ "Y3" :=
  ⟨by decide, (c8_exact_match_resolution defaultConsts 2024 "档案业务类"
    "业务类" "Y3" (by decide) ⟨Or.inr (by decide), by decide⟩ (by decide)
    (by decide)).2.1⟩

/- ── C9: year-source fallback and silent no-op ────────────────────────── -/

/-- C9 counterexample: a formation time whose first four characters
parse to zero is present, long enough and parseable, so under the
claim the effective year is zero and the old table applies; the code
instead falls back to the archival year (Python falsiness of zero) and
resolves via the new table on this record. -/
theorem c9_counterexample_zero_year :
    mget (validateClassificationCode defaultConsts
      [("文件形成时间", some "00001231"), ("归档年度", some "2024"),
       ("实体分类名称", some "综合类"), ("实体分类号", some "2")])
      "实体分类号" ≠ some "2" ∧
    mget (validateClassificationCode defaultConsts
      [("文件形成时间", some "00001231"), ("归档年度", some "2024"),
       ("实体分类名称", some "综合类"), ("实体分类号", some "2")])
      "实体分类号" = some "Z2" :=
  ⟨by decide, by decide⟩

/-- C9 (amended): the effective year is the first four characters of
the formation time parsed as an integer when the field is present, at
least four characters long and parses to a nonzero value; when it is
missing, short, unparseable or parses to zero, the archival year
parsed as an integer is used instead (zero accepted there); and when
that also fails to parse the resolver returns the record unchanged
without raising. -/
theorem c9_amended_year_fallback (cs : Consts) (m : Metadata)
    (hne : m.isEmpty = false) :
    (∀ y : Int, formedYear m = some y → y ≠ 0 →
      validateClassificationCode cs m = resolveWith cs m y) ∧
    (∀ y : Int, (formedYear m = none ∨ formedYear m = some 0) →
      archivalYear m = some y →
      validateClassificationCode cs m = resolveWith cs m y) ∧
    ((formedYear m = none ∨ formedYear m = some 0) → archivalYear m = none →
      validateClassificationCode cs m = m) := by
  unfold validateClassificationCode
  rw [if_neg (by simp [hne])]
  simp only []
  refine ⟨?_, ?_, ?_⟩
  · intro y hy hy0
    unfold formedYear at hy
    split
    · rename_i heq
      simp only [hy] at heq
      rw [if_neg hy0] at heq
      cases heq
    · rename_i heq
      simp only [hy] at heq
      rw [if_neg hy0] at heq
      injection heq with heq
      subst heq
      unfold resolveWith
      rfl
  · intro y hyz hay
    unfold formedYear at hyz
    unfold archivalYear at hay
    split
    · rename_i heq
      rcases hyz with hyn | hy0
      · simp only [hyn] at heq
        rw [hay] at heq
        cases heq
      · simp only [hy0] at heq
        rw [if_pos trivial, hay] at heq
        cases heq
    · rename_i heq
      rcases hyz with hyn | hy0
      · simp only [hyn] at heq
        rw [hay] at heq
        injection heq with heq
        subst heq
        unfold resolveWith
        rfl
      · simp only [hy0] at heq
        rw [if_pos trivial, hay] at heq
        injection heq with heq
        subst heq
        unfold resolveWith
        rfl
  · intro hyz hay
    unfold formedYear at hyz
    unfold archivalYear at hay
    split
    · rfl
    · rename_i heq
      rcases hyz with hyn | hy0
      · simp only [hyn] at heq
        rw [hay] at heq
        cases heq
      · simp only [hy0] at heq
        rw [if_pos trivial, hay] at heq
        cases heq

/-- C9 witness: a well-formed nonzero formation year drives the
resolver on a concrete record. -/
theorem c9_amended_year_fallback_witness :
    (([("文件形成时间", some "20190505"), ("实体分类名称", some "综合类")]
      : Metadata).isEmpty = false) ∧
    validateClassificationCode defaultConsts
        [("文件形成时间", some "20190505"), ("实体分类名称", some "综合类")] =
      resolveWith defaultConsts
        [("文件形成时间", some "20190505"), ("实体分类名称", some "综合类")]
        2019 :=
  ⟨by decide,
    (c9_amended_year_fallback defaultConsts
      [("文件形成时间", some "20190505"), ("实体分类名称", some "综合类")]
      (by decide)).1 2019 (by decide) (by decide)⟩

end RulesEngine
